import Mathlib

/-!
Verification of the gcloud-node generic gRPC dispatch layer.

The repository ships service wrappers over a shared core:
`GrpcService.request` (dispatch, camelCase-to-snake_case field translation,
stripping of gcloud-only pagination options, a fixed grpc-to-HTTP error
code table, and a retry-on-UNAVAILABLE policy), `GrpcService.convertValue_`
(generic tagged struct conversion), `GrpcService.getGrpcCredentials_`
(credential resolution), and per-service paged list methods such as
`Bigtable.prototype.getInstances`.

The shared core `lib/common/grpc-service.js` is not present in the source
tree (only its unit test is), so its operations are modelled from the
design specification; `Bigtable.prototype.getInstances` is embedded
directly from `packages/bigtable/src/index.js`.
-/

namespace GcloudNode

/-- Model of a JavaScript value as it flows through the request layer:
null, numbers, strings, booleans, arrays, plain objects (association
lists in insertion order), and a catch-all constructor for values of any
other runtime type, tagged with the type name (for example "Date"). -/
inductive JVal : Type where
  | jnull : JVal
  | jnum : Int → JVal
  | jstr : String → JVal
  | jbool : Bool → JVal
  | jarr : List JVal → JVal
  | jobj : List (String × JVal) → JVal
  | jother : String → JVal

/-- An object's own enumerable fields, in insertion order. -/
abbrev Fields := List (String × JVal)

/-- The 26 ASCII uppercase letters paired with their lowercase forms. -/
def upperLowerPairs : List (Char × Char) :=
  [('A', 'a'), ('B', 'b'), ('C', 'c'), ('D', 'd'), ('E', 'e'), ('F', 'f'),
   ('G', 'g'), ('H', 'h'), ('I', 'i'), ('J', 'j'), ('K', 'k'), ('L', 'l'),
   ('M', 'm'), ('N', 'n'), ('O', 'o'), ('P', 'p'), ('Q', 'q'), ('R', 'r'),
   ('S', 's'), ('T', 't'), ('U', 'u'), ('V', 'v'), ('W', 'w'), ('X', 'x'),
   ('Y', 'y'), ('Z', 'z')]

/-- Lowercase form of an ASCII uppercase letter; `none` on any other
character. -/
def charCaseMap (c : Char) : Option Char :=
  (upperLowerPairs.find? (fun p => p.1 == c)).map Prod.snd

/-- Modelled from the spec: one character of the camelCase to snake_case
translation applied by the RPC dispatcher (missing from the tree with
`lib/common/grpc-service.js`). An uppercase letter becomes an underscore
followed by its lowercase form; every other character is kept. -/
def snakeChar (c : Char) : List Char :=
  match charCaseMap c with
  | some l => ['_', l]
  | none => [c]

/-- Modelled from the spec: the camelCase to snake_case field-name
translation used by the RPC dispatcher before hitting the wire. -/
def snakeCase (s : String) : String :=
  String.mk ((s.data.map snakeChar).flatten)

/-- A field name is in the wire (snake_case) convention when it contains
no ASCII uppercase character. -/
def snakeKeyOk (s : String) : Bool :=
  s.data.all (fun c => (charCaseMap c).isNone)

mutual

/-- Modelled from the spec: recursive field-name translation of a value.
Objects have every key snake_cased and every value converted recursively;
arrays convert their object elements recursively; primitives pass through
unchanged. -/
def snakeizeVal : JVal → JVal
  | .jnull => .jnull
  | .jnum n => .jnum n
  | .jstr s => .jstr s
  | .jbool b => .jbool b
  | .jother t => .jother t
  | .jarr xs => .jarr (snakeizeList xs)
  | .jobj fs => .jobj (snakeizeFields fs)

/-- Recursive field-name translation of an array's elements. -/
def snakeizeList : List JVal → List JVal
  | [] => []
  | x :: xs => snakeizeVal x :: snakeizeList xs

/-- Recursive field-name translation of an object's fields. -/
def snakeizeFields : Fields → Fields
  | [] => []
  | (k, v) :: fs => (snakeCase k, snakeizeVal v) :: snakeizeFields fs

end

example : snakeCase "camelOption" = "camel_option" := by decide
example : snakeCase "autoPaginate" = "auto_paginate" := by decide
example : snakeKeyOk "auto_paginate" = true := by decide
example : snakeKeyOk "autoPaginate" = false := by decide

/-- Modelled from the spec: the gcloud-only pagination-control options
stripped from the outgoing fields by the RPC dispatcher (missing from the
tree with `lib/common/grpc-service.js`). -/
def GCLOUD_SPECIFIC_OPTIONS : List String :=
  ["autoPaginate", "autoPaginateVal", "maxApiCalls", "maxResults", "pageSize"]

/-- Modelled from the spec: the outgoing fields actually handed to the
stub method, obtained by stripping the gcloud-only pagination options and
then translating every field name to the wire (snake_case) convention. -/
def prepareReqOpts (reqOpts : Fields) : Fields :=
  snakeizeFields (reqOpts.filter (fun kv => !(GCLOUD_SPECIFIC_OPTIONS.contains kv.1)))

/-- A JavaScript error object as delivered through callbacks: an optional
numeric `code` property and a message. -/
structure JsError where
  code : Option Nat
  message : String
deriving DecidableEq, Repr

/-- Outcome of one invocation of the stub method: a failure carrying a
grpc status code, or a success carrying the raw wire response. -/
inductive StubResult : Type where
  | failure : JsError → StubResult
  | success : JVal → StubResult

/-- Modelled from the spec: the fixed grpc status code to HTTP status
table of the RPC dispatcher (0 to 200, 1 to 499, 2 to 500, 3 to 400,
4 to 504, 5 to 404, 6 to 409, 7 to 403, 8 to 429, 9 to 412, 10 to 409,
11 to 400, 12 to 501, 13 to 500, 14 to 503, 15 to 500, 16 to 401). -/
def httpErrorCodeMap : Nat → Option Nat
  | 0 => some 200
  | 1 => some 499
  | 2 => some 500
  | 3 => some 400
  | 4 => some 504
  | 5 => some 404
  | 6 => some 409
  | 7 => some 403
  | 8 => some 429
  | 9 => some 412
  | 10 => some 409
  | 11 => some 400
  | 12 => some 501
  | 13 => some 500
  | 14 => some 503
  | 15 => some 500
  | 16 => some 401
  | _ => none

/-- Modelled from the spec: on failure the dispatcher looks the transport
status code up in the fixed table and overwrites the error object's
`code` with the paired HTTP status, leaving the rest of the error
untouched. -/
def mapGrpcError (e : JsError) : JsError :=
  match e.code with
  | some c =>
    match httpErrorCodeMap c with
    | some http => { code := some http, message := e.message }
    | none => e
  | none => e

/-- The grpc status code for UNAVAILABLE, the only retried failure. -/
def GRPC_UNAVAILABLE : Nat := 14

/-- Modelled from the spec: transport-level channel credential values
produced by the grpc library (`createInsecure`, `createSsl`,
`createFromGoogleCredential`, `combineChannelCredentials`). -/
inductive ChannelCreds : Type where
  | createInsecure : ChannelCreds
  | createSsl : ChannelCreds
  | createFromGoogleCredential : String → ChannelCreds
  | combineChannelCredentials : ChannelCreds → ChannelCreds → ChannelCreds
deriving DecidableEq, Repr

/-- Modelled from the spec: `GrpcService.getGrpcCredentials_` (missing
from the tree with `lib/common/grpc-service.js`). It asks the auth client
for an application credential; on failure the auth error is handed back
unchanged, on success the channel credential combines SSL channel
credentials with the Google application credential. -/
def getGrpcCredentials_ (authResult : Except JsError String) :
    Except JsError ChannelCreds :=
  match authResult with
  | .error e => .error e
  | .ok authClient =>
      .ok (.combineChannelCredentials .createSsl
            (.createFromGoogleCredential authClient))

/-- Modelled from the spec and the unit test: the credential value the
GrpcService constructor installs eagerly. With `customEndpoint: true` the
channel credentials are created insecure; otherwise nothing is installed
yet and the first request resolves them via `getGrpcCredentials_`. -/
def GrpcService.initCredentials (customEndpoint : Bool) : Option ChannelCreds :=
  if customEndpoint then some .createInsecure else none

/-- Modelled from the spec: the retry loop of the RPC dispatcher. The
stub method is invoked with the prepared fields; a failure whose grpc
status code is UNAVAILABLE (14) is reissued while retries remain (2 extra
attempts); any other outcome is final. Returns the number of stub
invocations made together with the final stub outcome. -/
def runWithRetries (stub : Nat → Fields → StubResult) (fields : Fields) :
    Nat → Nat → Nat × StubResult
  | retriesLeft, attempt =>
    match stub attempt fields with
    | .success r => (attempt + 1, .success r)
    | .failure e =>
      match retriesLeft with
      | 0 => (attempt + 1, .failure e)
      | r + 1 =>
        if e.code = some GRPC_UNAVAILABLE then
          runWithRetries stub fields r (attempt + 1)
        else
          (attempt + 1, .failure e)

/-- Observable trace of one call to `GrpcService.request`: how many times
the credential exchange and the stub method ran, which fields were handed
to the stub, and what the caller's callback received. -/
structure RequestTrace where
  credentialCalls : Nat
  stubCalls : Nat
  sentFields : Fields
  err : Option JsError
  resp : Option JVal

/-- Modelled from the spec: the dispatch path of `GrpcService.request`
once channel credentials are available. Strips gcloud-only options,
snake_cases the field names, runs the stub with up to 2 retries on
UNAVAILABLE, and delivers either the raw response or the error object
with its `code` mapped through the fixed HTTP table. -/
def requestWithCreds (credentialCalls : Nat) (stub : Nat → Fields → StubResult)
    (reqOpts : Fields) : RequestTrace :=
  let fields := prepareReqOpts reqOpts
  match runWithRetries stub fields 2 0 with
  | (n, .success r) =>
      { credentialCalls := credentialCalls, stubCalls := n,
        sentFields := fields, err := none, resp := some r }
  | (n, .failure e) =>
      { credentialCalls := credentialCalls, stubCalls := n,
        sentFields := fields, err := some (mapGrpcError e), resp := none }

/-- Modelled from the spec: `GrpcService.request` (missing from the tree
with `lib/common/grpc-service.js`). If channel credentials are cached the
dispatch proceeds directly; otherwise they are resolved once through
`getGrpcCredentials_`, and a credential failure is delivered to the
callback unchanged without invoking the stub method. -/
def GrpcService.request (cachedCreds : Option ChannelCreds)
    (authResult : Except JsError String) (stub : Nat → Fields → StubResult)
    (reqOpts : Fields) : RequestTrace :=
  match cachedCreds with
  | some _ => requestWithCreds 0 stub reqOpts
  | none =>
    match getGrpcCredentials_ authResult with
    | .error e =>
        { credentialCalls := 1, stubCalls := 0, sentFields := [],
          err := some e, resp := none }
    | .ok _ => requestWithCreds 1 stub reqOpts

example :
    (GrpcService.request (some .createInsecure) (.ok "c")
      (fun _ _ => .failure { code := some 14, message := "unavailable" })
      []).stubCalls = 3 := by rfl

example :
    (GrpcService.request (some .createInsecure) (.ok "c")
      (fun _ _ => .failure { code := some 14, message := "unavailable" })
      []).err = some { code := some 503, message := "unavailable" } := by rfl

example :
    (GrpcService.request (some .createInsecure) (.ok "c")
      (fun _ _ => .failure { code := some 5, message := "missing" })
      []).stubCalls = 1 := by rfl

/-- A generic tagged struct value produced by `GrpcService.convertValue_`:
one constructor per supported JavaScript type (nullValue, numberValue,
stringValue, booleanValue, listValue, and a struct wrapping converted
fields). -/
inductive StructValue : Type where
  | nullValue : StructValue
  | numberValue : Int → StructValue
  | stringValue : String → StructValue
  | booleanValue : Bool → StructValue
  | listValue : List StructValue → StructValue
  | structValue : List (String × StructValue) → StructValue

mutual

/-- Modelled from the spec: `GrpcService.convertValue_` (missing from the
tree with `lib/common/grpc-service.js`). A pure transform of a generic
value to a tagged struct value: null, numbers, strings and booleans map
to the matching tagged constructor, arrays map elementwise to a
listValue, plain objects map through `objToStruct_`, and a value of any
other runtime type throws synchronously, modelled as an `Except.error`
carrying the thrown message. -/
def convertValue_ : JVal → Except String StructValue
  | .jnull => .ok .nullValue
  | .jnum n => .ok (.numberValue n)
  | .jstr s => .ok (.stringValue s)
  | .jbool b => .ok (.booleanValue b)
  | .jarr xs =>
    match convertList xs with
    | .error e => .error e
    | .ok outs => .ok (.listValue outs)
  | .jobj fs =>
    match objToStruct_ fs with
    | .error e => .error e
    | .ok outs => .ok (.structValue outs)
  | .jother t => .error ("Value of type " ++ t ++ " not recognized.")

/-- Elementwise conversion of an array's values. -/
def convertList : List JVal → Except String (List StructValue)
  | [] => .ok []
  | x :: xs =>
    match convertValue_ x with
    | .error e => .error e
    | .ok v =>
      match convertList xs with
      | .error e => .error e
      | .ok vs => .ok (v :: vs)

/-- Modelled from the spec: `GrpcService.objToStruct_`, converting each
field value of a plain object through `convertValue_`. -/
def objToStruct_ : Fields → Except String (List (String × StructValue))
  | [] => .ok []
  | (k, v) :: fs =>
    match convertValue_ v with
    | .error e => .error e
    | .ok out =>
      match objToStruct_ fs with
      | .error e => .error e
      | .ok outs => .ok ((k, out) :: outs)

end

mutual

/-- A value is convertible when no subvalue has an unsupported runtime
type: it is built from null, numbers, strings, booleans, arrays and
plain objects only. -/
def supportedVal : JVal → Bool
  | .jnull => true
  | .jnum _ => true
  | .jstr _ => true
  | .jbool _ => true
  | .jarr xs => supportedList xs
  | .jobj fs => supportedFields fs
  | .jother _ => false

/-- Every element of the array is convertible. -/
def supportedList : List JVal → Bool
  | [] => true
  | x :: xs => supportedVal x && supportedList xs

/-- Every field value of the object is convertible. -/
def supportedFields : Fields → Bool
  | [] => true
  | (_, v) :: fs => supportedVal v && supportedFields fs

end

/-- The top-level tag of the converted value matches the input's
JavaScript type: null to nullValue, number to numberValue, string to
stringValue, boolean to booleanValue, array to listValue, plain object
to a struct. -/
def structTag : JVal → StructValue → Bool
  | .jnull, .nullValue => true
  | .jnum n, .numberValue m => n == m
  | .jstr s, .stringValue s2 => s == s2
  | .jbool b, .booleanValue b2 => b == b2
  | .jarr _, .listValue _ => true
  | .jobj _, .structValue _ => true
  | _, _ => false

/-- Property read `fs[k]` on an object's fields: the first field named
`k`, or `none` when the property is absent (JavaScript `undefined`). -/
def lookupField (fs : Fields) (k : String) : Option JVal :=
  (fs.find? (fun kv => kv.1 == k)).map Prod.snd

/-- JavaScript truthiness of a property read: absent, null, false, zero
and the empty string are falsy; everything else is truthy. -/
def truthyProp : Option JVal → Bool
  | none => false
  | some .jnull => false
  | some (.jbool b) => b
  | some (.jnum n) => n != 0
  | some (.jstr s) => s != ""
  | some (.jarr _) => true
  | some (.jobj _) => true
  | some (.jother _) => true

/-- Shallow merge `extend(\x7b\x7d, fs, \x7bk: v\x7d)`: keys of `fs` are
kept in order with the binding for `k` overwritten in place when present,
or appended when absent. -/
def setField (fs : Fields) (k : String) (v : JVal) : Fields :=
  if fs.any (fun kv => kv.1 == k) then
    fs.map (fun kv => if kv.1 == k then (k, v) else kv)
  else
    fs ++ [(k, v)]

/-- Property read on an arbitrary value: object fields are looked up, any
other value yields `undefined`. -/
def jGet (v : JVal) (k : String) : Option JVal :=
  match v with
  | .jobj fs => lookupField fs k
  | _ => none

/-- Wire response of `BigtableInstanceAdmin.listInstances`: the raw
instance records and the optional next page token. -/
structure ListInstancesResponse where
  instances : List JVal
  nextPageToken : Option String

/-- An `Instance` object as built by `Bigtable.prototype.getInstances`:
`self.instance(instanceData.name)` with `instance.metadata` set to the
raw record. -/
structure BigtableInstance where
  name : Option JVal
  metadata : JVal

/-- The four arguments `getInstances` hands to its callback:
`(err, instances, nextQuery, apiResponse)`. -/
structure GetInstancesCallbackArgs where
  err : Option JsError
  instances : Option (List BigtableInstance)
  nextQuery : Option Fields
  apiResponse : Option ListInstancesResponse

/-- The outgoing request fields built by `Bigtable.prototype.getInstances`
(from `packages/bigtable/src/index.js`): `parent` is the project name,
and `pageToken` is copied from the query only when truthy. -/
def Bigtable.getInstancesReqOpts (projectName : String) (query : Fields) :
    Fields :=
  if truthyProp (lookupField query "pageToken") then
    match lookupField query "pageToken" with
    | some v => [("parent", .jstr projectName), ("pageToken", v)]
    | none => [("parent", .jstr projectName)]
  else
    [("parent", .jstr projectName)]

/-- The response handler of `Bigtable.prototype.getInstances` (from
`packages/bigtable/src/index.js`). On error the callback gets
`(err, null, null, resp)`. On success each raw record becomes an
`Instance` carrying it as metadata, and `nextQuery` is the original query
merged with the returned `nextPageToken` when that token is truthy, or
null otherwise. A success with no response object would crash reading
`resp.instances` (modelled as `none`). -/
def Bigtable.getInstancesOnResponse (query : Fields) (err : Option JsError)
    (resp : Option ListInstancesResponse) : Option GetInstancesCallbackArgs :=
  match err with
  | some e =>
      some { err := some e, instances := none, nextQuery := none,
             apiResponse := resp }
  | none =>
    match resp with
    | none => none
    | some r =>
      let insts := r.instances.map
        (fun d => ({ name := jGet d "name", metadata := d } : BigtableInstance))
      let nextQuery : Option Fields :=
        match r.nextPageToken with
        | some t => if t != "" then some (setField query "pageToken" (.jstr t))
                    else none
        | none => none
      some { err := none, instances := some insts, nextQuery := nextQuery,
             apiResponse := some r }

mutual

/-- A value presented in wire convention: every object key at every depth
contains no ASCII uppercase character. -/
def valSnake : JVal → Bool
  | .jnull => true
  | .jnum _ => true
  | .jstr _ => true
  | .jbool _ => true
  | .jother _ => true
  | .jarr xs => listSnake xs
  | .jobj fs => fieldsSnake fs

/-- Every element of the array is in wire convention. -/
def listSnake : List JVal → Bool
  | [] => true
  | x :: xs => valSnake x && listSnake xs

/-- Every key of the object is snake_case and every value is in wire
convention. -/
def fieldsSnake : Fields → Bool
  | [] => true
  | (k, v) :: fs => snakeKeyOk k && valSnake v && fieldsSnake fs

end

theorem charCaseMap_mem_snd :
    ∀ l ∈ upperLowerPairs.map Prod.snd, (charCaseMap l).isNone = true := by
  decide

theorem charCaseMap_some_inv (c l : Char) (h : charCaseMap c = some l) :
    (charCaseMap l).isNone = true := by
  unfold charCaseMap at h
  cases hf : upperLowerPairs.find? (fun p => p.1 == c) with
  | none => rw [hf] at h; simp at h
  | some p =>
    rw [hf] at h
    simp only [Option.map_some'] at h
    have hm : p ∈ upperLowerPairs := List.mem_of_find?_eq_some hf
    have hsnd : p.2 ∈ upperLowerPairs.map Prod.snd :=
      List.mem_map_of_mem Prod.snd hm
    have hl : p.2 = l := Option.some.inj h
    rw [← hl]
    exact charCaseMap_mem_snd p.2 hsnd

theorem snakeChar_all_ok (c : Char) :
    (snakeChar c).all (fun d => (charCaseMap d).isNone) = true := by
  unfold snakeChar
  cases hm : charCaseMap c with
  | none => simp [hm]
  | some l =>
    have hu : (charCaseMap '_').isNone = true := by decide
    simp [hu, charCaseMap_some_inv c l hm]

theorem snake_flatten_ok (cs : List Char) :
    ((cs.map snakeChar).flatten).all (fun c => (charCaseMap c).isNone) = true := by
  induction cs with
  | nil => rfl
  | cons c cs ih => simp [List.all_append, ih, snakeChar_all_ok c]

theorem snakeKeyOk_snakeCase (s : String) : snakeKeyOk (snakeCase s) = true :=
  snake_flatten_ok s.data

theorem snakeizeFields_key_ok :
    ∀ (fs : Fields) (k : String) (v : JVal),
      (k, v) ∈ snakeizeFields fs → snakeKeyOk k = true := by
  intro fs
  induction fs with
  | nil => intro k v h; simp [snakeizeFields] at h
  | cons kv fs ih =>
    intro k v h
    obtain ⟨k0, v0⟩ := kv
    rw [snakeizeFields] at h
    rcases List.mem_cons.mp h with h1 | h2
    · obtain ⟨hk, -⟩ := Prod.mk.injEq .. ▸ h1
      rw [hk]
      exact snakeKeyOk_snakeCase k0
    · exact ih k v h2

theorem mem_snakeizeFields_of_mem :
    ∀ (fs : Fields) (k : String) (v : JVal),
      (k, v) ∈ fs → (snakeCase k, snakeizeVal v) ∈ snakeizeFields fs := by
  intro fs
  induction fs with
  | nil => intro k v h; simp at h
  | cons kv fs ih =>
    intro k v h
    obtain ⟨k0, v0⟩ := kv
    rw [snakeizeFields]
    rcases List.mem_cons.mp h with h1 | h2
    · obtain ⟨hk, hv⟩ := Prod.mk.injEq .. ▸ h1
      rw [hk, hv]
      exact List.mem_cons_self ..
    · exact List.mem_cons_of_mem _ (ih k v h2)

theorem snakeizeFields_mem_inv :
    ∀ (fs : Fields) (k : String) (v : JVal),
      (k, v) ∈ snakeizeFields fs →
        ∃ k0 v0, (k0, v0) ∈ fs ∧ k = snakeCase k0 ∧ v = snakeizeVal v0 := by
  intro fs
  induction fs with
  | nil => intro k v h; simp [snakeizeFields] at h
  | cons kv fs ih =>
    intro k v h
    obtain ⟨k0, v0⟩ := kv
    rw [snakeizeFields] at h
    rcases List.mem_cons.mp h with h1 | h2
    · obtain ⟨hk, hv⟩ := Prod.mk.injEq .. ▸ h1
      exact ⟨k0, v0, List.mem_cons_self .., hk, hv⟩
    · obtain ⟨k1, v1, hm, hk, hv⟩ := ih k v h2
      exact ⟨k1, v1, List.mem_cons_of_mem _ hm, hk, hv⟩

mutual

theorem valSnake_snakeize : ∀ v : JVal, valSnake (snakeizeVal v) = true
  | .jnull => rfl
  | .jnum _ => rfl
  | .jstr _ => rfl
  | .jbool _ => rfl
  | .jother _ => rfl
  | .jarr xs => by
      rw [snakeizeVal]
      rw [valSnake]
      exact listSnake_snakeize xs
  | .jobj fs => by
      rw [snakeizeVal]
      rw [valSnake]
      exact fieldsSnake_snakeize fs

theorem listSnake_snakeize : ∀ xs : List JVal, listSnake (snakeizeList xs) = true
  | [] => rfl
  | x :: xs => by
      rw [snakeizeList]
      rw [listSnake]
      rw [valSnake_snakeize x, listSnake_snakeize xs]
      rfl

theorem fieldsSnake_snakeize : ∀ fs : Fields, fieldsSnake (snakeizeFields fs) = true
  | [] => rfl
  | (k, v) :: fs => by
      rw [snakeizeFields]
      rw [fieldsSnake]
      rw [snakeKeyOk_snakeCase k, valSnake_snakeize v, fieldsSnake_snakeize fs]
      rfl

end

mutual

theorem convertValue_ok : ∀ v : JVal, supportedVal v = true →
    ∃ out, convertValue_ v = .ok out ∧ structTag v out = true
  | .jnull, _ => ⟨.nullValue, rfl, rfl⟩
  | .jnum n, _ => ⟨.numberValue n, rfl, by simp [structTag]⟩
  | .jstr s, _ => ⟨.stringValue s, rfl, by simp [structTag]⟩
  | .jbool b, _ => ⟨.booleanValue b, rfl, by simp [structTag]⟩
  | .jarr xs, h => by
      have hs : supportedList xs = true := by
        rw [supportedVal] at h; exact h
      obtain ⟨outs, ho⟩ := convertList_ok xs hs
      exact ⟨.listValue outs, by rw [convertValue_, ho], rfl⟩
  | .jobj fs, h => by
      have hs : supportedFields fs = true := by
        rw [supportedVal] at h; exact h
      obtain ⟨outs, ho⟩ := objToStruct_ok fs hs
      exact ⟨.structValue outs, by rw [convertValue_, ho], rfl⟩
  | .jother t, h => by rw [supportedVal] at h; cases h

theorem convertList_ok : ∀ xs : List JVal, supportedList xs = true →
    ∃ outs, convertList xs = .ok outs
  | [], _ => ⟨[], rfl⟩
  | x :: xs, h => by
      rw [supportedList, Bool.and_eq_true] at h
      obtain ⟨out, ho, -⟩ := convertValue_ok x h.1
      obtain ⟨outs, hos⟩ := convertList_ok xs h.2
      exact ⟨out :: outs, by rw [convertList, ho, hos]⟩

theorem objToStruct_ok : ∀ fs : Fields, supportedFields fs = true →
    ∃ outs, objToStruct_ fs = .ok outs
  | [], _ => ⟨[], rfl⟩
  | (k, v) :: fs, h => by
      rw [supportedFields, Bool.and_eq_true] at h
      obtain ⟨out, ho, -⟩ := convertValue_ok v h.1
      obtain ⟨outs, hos⟩ := objToStruct_ok fs h.2
      exact ⟨(k, out) :: outs, by rw [objToStruct_, ho, hos]⟩

end

theorem lookupField_overwrite :
    ∀ (fs : Fields) (k : String) (v : JVal),
      fs.any (fun kv => kv.1 == k) = true →
      lookupField (fs.map (fun kv => if kv.1 == k then (k, v) else kv)) k
        = some v := by
  intro fs k v h
  induction fs with
  | nil => simp at h
  | cons kv fs ih =>
    obtain ⟨k0, v0⟩ := kv
    by_cases hk : k0 = k
    · subst hk
      simp [lookupField, List.find?_cons]
    · have h' : fs.any (fun kv => kv.1 == k) = true := by
        simpa [hk] using h
      have := ih h'
      simpa [lookupField, List.find?_cons, hk] using this

theorem lookupField_setField_self (fs : Fields) (k : String) (v : JVal) :
    lookupField (setField fs k v) k = some v := by
  unfold setField
  by_cases h : fs.any (fun kv => kv.1 == k) = true
  · rw [if_pos h]
    exact lookupField_overwrite fs k v h
  · rw [if_neg h]
    have hall : ∀ kv ∈ fs, ¬ (kv.1 == k) = true := by
      intro kv hm hkv
      exact h (List.any_eq_true.mpr ⟨kv, hm, hkv⟩)
    have hf : fs.find? (fun kv => kv.1 == k) = none :=
      List.find?_eq_none.mpr hall
    simp [lookupField, List.find?_append, hf, List.find?_cons]

theorem lookupField_setField_other (fs : Fields) (k k' : String) (v : JVal)
    (hne : k' ≠ k) :
    lookupField (setField fs k v) k' = lookupField fs k' := by
  have hkk' : k ≠ k' := Ne.symm hne
  unfold setField
  by_cases h : fs.any (fun kv => kv.1 == k) = true
  · rw [if_pos h]
    clear h
    induction fs with
    | nil => rfl
    | cons kv fs ih =>
      obtain ⟨k0, v0⟩ := kv
      by_cases hk : k0 = k
      · subst hk
        simp [lookupField, List.find?_cons, hkk'] at ih ⊢
        exact ih
      · by_cases hk' : k0 = k'
        · subst hk'
          simp [lookupField, List.find?_cons, hk]
        · simp [lookupField, List.find?_cons, hk, hk'] at ih ⊢
          exact ih
  · rw [if_neg h]
    cases hf : fs.find? (fun kv => kv.1 == k') with
    | some p => simp [lookupField, List.find?_append, hf]
    | none => simp [lookupField, List.find?_append, hf, List.find?_cons, hkk']

theorem requestWithCreds_sentFields (n : Nat) (stub : Nat → Fields → StubResult)
    (reqOpts : Fields) :
    (requestWithCreds n stub reqOpts).sentFields = prepareReqOpts reqOpts := by
  unfold requestWithCreds
  rcases h : runWithRetries stub (prepareReqOpts reqOpts) 2 0 with ⟨k, res⟩
  cases res <;> simp [h]

theorem gcloud_options_not_snake :
    ∀ p ∈ GCLOUD_SPECIFIC_OPTIONS, snakeKeyOk p = false := by decide

/-- Claim C1: for every transport failure code c in 0..16 returned by the
stub method, dispatch (GrpcService.request) delivers to its callback the
same error object with its code set to the paired HTTP status from the
fixed table 0 to 200, 1 to 499, 2 to 500, 3 to 400, 4 to 504, 5 to 404,
6 to 409, 7 to 403, 8 to 429, 9 to 412, 10 to 409, 11 to 400, 12 to 501,
13 to 500, 14 to 503, 15 to 500, 16 to 401. -/
theorem request_delivers_mapped_http_status (c h : Nat) (m : String)
    (cr : ChannelCreds) (auth : Except JsError String) (reqOpts : Fields)
    (hh : httpErrorCodeMap c = some h) :
    (List.range 17).map httpErrorCodeMap =
      [some 200, some 499, some 500, some 400, some 504, some 404, some 409,
       some 403, some 429, some 412, some 409, some 400, some 501, some 500,
       some 503, some 500, some 401] ∧
    (GrpcService.request (some cr) auth
        (fun _ _ => .failure { code := some c, message := m }) reqOpts).err
      = some { code := some h, message := m } := by
  refine ⟨by decide, ?_⟩
  by_cases hc : c = 14
  · subst hc
    have h503 : h = 503 := (Option.some.inj hh).symm
    subst h503
    rfl
  · simp [GrpcService.request, requestWithCreds, runWithRetries,
      GRPC_UNAVAILABLE, hc, mapGrpcError, hh]

/-- Witness for C1 at transport code 5 (NOT_FOUND), mapped to 404. -/
theorem request_delivers_mapped_http_status_witness :
    httpErrorCodeMap 5 = some 404 ∧
    (GrpcService.request (some .createInsecure) (.ok "client")
        (fun _ _ => .failure { code := some 5, message := "boom" }) []).err
      = some { code := some 404, message := "boom" } :=
  ⟨rfl, (request_delivers_mapped_http_status 5 404 "boom" .createInsecure
    (.ok "client") [] rfl).2⟩

/-- Claim C2: only a failure with transport code 14 (UNAVAILABLE) is
retried, with at most 2 extra attempts; a stub failing with code 14 on
every invocation is invoked exactly 3 times and the delivered error has
code 503; a failure with any other code is delivered immediately after a
single invocation, with its code mapped through the fixed table. -/
theorem request_retry_policy (m : String) (cr : ChannelCreds)
    (auth : Except JsError String) (reqOpts : Fields) :
    ((GrpcService.request (some cr) auth
        (fun _ _ => .failure { code := some 14, message := m }) reqOpts).stubCalls
        = 3 ∧
     (GrpcService.request (some cr) auth
        (fun _ _ => .failure { code := some 14, message := m }) reqOpts).err
        = some { code := some 503, message := m }) ∧
    ∀ c, c ≠ 14 →
      (GrpcService.request (some cr) auth
          (fun _ _ => .failure { code := some c, message := m }) reqOpts).stubCalls
          = 1 ∧
      ∀ h, httpErrorCodeMap c = some h →
        (GrpcService.request (some cr) auth
            (fun _ _ => .failure { code := some c, message := m }) reqOpts).err
          = some { code := some h, message := m } := by
  refine ⟨⟨rfl, rfl⟩, ?_⟩
  intro c hc
  constructor
  · simp [GrpcService.request, requestWithCreds, runWithRetries,
      GRPC_UNAVAILABLE, hc]
  · intro h hh
    simp [GrpcService.request, requestWithCreds, runWithRetries,
      GRPC_UNAVAILABLE, hc, mapGrpcError, hh]

/-- Witness for C2: the non-retried branch at transport code 7, mapped
to 403, next to the exhaustion branch at code 14. -/
theorem request_retry_policy_witness :
    (GrpcService.request (some .createInsecure) (.ok "client")
        (fun _ _ => .failure { code := some 14, message := "down" }) []).stubCalls
      = 3 ∧
    (GrpcService.request (some .createInsecure) (.ok "client")
        (fun _ _ => .failure { code := some 7, message := "denied" }) []).stubCalls
      = 1 ∧
    (GrpcService.request (some .createInsecure) (.ok "client")
        (fun _ _ => .failure { code := some 7, message := "denied" }) []).err
      = some { code := some 403, message := "denied" } := by
  have h := request_retry_policy "denied" .createInsecure (.ok "client") []
  have h7 := h.2 7 (by decide)
  exact ⟨(request_retry_policy "down" .createInsecure (.ok "client") []).1.1,
    h7.1, h7.2 403 rfl⟩

/-- Claim C3: if the stub method fails with code 14 (UNAVAILABLE) exactly
once and succeeds on the second invocation, dispatch succeeds (the
callback receives the response and no error) and the stub method is
invoked exactly twice. -/
theorem request_retries_once_then_succeeds (m : String) (cr : ChannelCreds)
    (auth : Except JsError String) (reqOpts : Fields) (resp : JVal)
    (stub : Nat → Fields → StubResult)
    (h0 : ∀ fields, stub 0 fields = .failure { code := some 14, message := m })
    (h1 : ∀ fields, stub 1 fields = .success resp) :
    (GrpcService.request (some cr) auth stub reqOpts).stubCalls = 2 ∧
    (GrpcService.request (some cr) auth stub reqOpts).err = none ∧
    (GrpcService.request (some cr) auth stub reqOpts).resp = some resp := by
  refine ⟨?_, ?_, ?_⟩ <;>
    simp [GrpcService.request, requestWithCreds, runWithRetries, h0, h1,
      GRPC_UNAVAILABLE]

/-- Witness for C3: a stub failing UNAVAILABLE on the first invocation
and succeeding on the second. -/
theorem request_retries_once_then_succeeds_witness :
    (GrpcService.request (some .createInsecure) (.ok "client")
        (fun n _ => if n = 0
          then .failure { code := some 14, message := "down" }
          else .success .jnull) []).stubCalls = 2 ∧
    (GrpcService.request (some .createInsecure) (.ok "client")
        (fun n _ => if n = 0
          then .failure { code := some 14, message := "down" }
          else .success .jnull) []).err = none ∧
    (GrpcService.request (some .createInsecure) (.ok "client")
        (fun n _ => if n = 0
          then .failure { code := some 14, message := "down" }
          else .success .jnull) []).resp = some .jnull :=
  request_retries_once_then_succeeds "down" .createInsecure (.ok "client") []
    .jnull _ (fun _ => rfl) (fun _ => rfl)

/-- Claim C4: for every dispatched request, none of the pagination-control
fields (autoPaginate, autoPaginateVal, maxApiCalls, maxResults, pageSize)
appear among the fields passed to the stub method, and all other
caller-supplied fields are forwarded unchanged except for name
translation: each survives under its snake_cased name with its
recursively translated value, and nothing else is sent. -/
theorem request_strips_pagination_options (cr : ChannelCreds)
    (auth : Except JsError String) (stub : Nat → Fields → StubResult)
    (reqOpts : Fields) :
    (∀ p ∈ GCLOUD_SPECIFIC_OPTIONS, ∀ v : JVal,
        (p, v) ∉ (GrpcService.request (some cr) auth stub reqOpts).sentFields) ∧
    (∀ k v, (k, v) ∈ reqOpts → k ∉ GCLOUD_SPECIFIC_OPTIONS →
        (snakeCase k, snakeizeVal v)
          ∈ (GrpcService.request (some cr) auth stub reqOpts).sentFields) ∧
    (∀ k v,
        (k, v) ∈ (GrpcService.request (some cr) auth stub reqOpts).sentFields →
        ∃ k0 v0, (k0, v0) ∈ reqOpts ∧ k0 ∉ GCLOUD_SPECIFIC_OPTIONS ∧
          k = snakeCase k0 ∧ v = snakeizeVal v0) := by
  have hsent : (GrpcService.request (some cr) auth stub reqOpts).sentFields
      = prepareReqOpts reqOpts := requestWithCreds_sentFields 0 stub reqOpts
  rw [hsent]
  refine ⟨?_, ?_, ?_⟩
  · intro p hp v hmem
    have hok : snakeKeyOk p = true :=
      snakeizeFields_key_ok _ p v hmem
    have hbad : snakeKeyOk p = false := gcloud_options_not_snake p hp
    rw [hok] at hbad
    cases hbad
  · intro k v hm hnot
    apply mem_snakeizeFields_of_mem
    refine List.mem_filter.mpr ⟨hm, ?_⟩
    simp [hnot]
  · intro k v hmem
    obtain ⟨k0, v0, hm, hk, hv⟩ := snakeizeFields_mem_inv _ k v hmem
    obtain ⟨hm0, hpred⟩ := List.mem_filter.mp hm
    refine ⟨k0, v0, hm0, ?_, hk, hv⟩
    intro hc
    simp [hc] at hpred

/-- Witness for C4: a request mixing a pagination option with ordinary
camelCase fields. -/
theorem request_strips_pagination_options_witness :
    ("autoPaginate" ∈ GCLOUD_SPECIFIC_OPTIONS ∧
      ("autoPaginate", JVal.jbool true) ∉
        (GrpcService.request (some .createInsecure) (.ok "client")
          (fun _ _ => .success .jnull)
          [("autoPaginate", .jbool true), ("camelOption", .jstr "x")]).sentFields) ∧
    ("camelOption", JVal.jstr "x") ∈
      [("autoPaginate", JVal.jbool true), ("camelOption", JVal.jstr "x")] ∧
    (snakeCase "camelOption", snakeizeVal (JVal.jstr "x")) ∈
      (GrpcService.request (some .createInsecure) (.ok "client")
        (fun _ _ => .success .jnull)
        [("autoPaginate", .jbool true), ("camelOption", .jstr "x")]).sentFields := by
  have h := request_strips_pagination_options .createInsecure (.ok "client")
    (fun _ _ => .success .jnull)
    [("autoPaginate", .jbool true), ("camelOption", .jstr "x")]
  refine ⟨⟨by decide, h.1 "autoPaginate" (by decide) (.jbool true)⟩, by simp, ?_⟩
  exact h.2.1 "camelOption" (.jstr "x") (by simp) (by decide)

/-- Claim C5: for every dispatched request, every field name in the
outgoing fields is in the wire (snake_case) convention, recursively
through nested objects and arrays, before the stub method is invoked; and
on success the raw response object is delivered to the callback identical
and untranslated. -/
theorem request_sends_snake_delivers_raw (cr : ChannelCreds)
    (auth : Except JsError String) (stub : Nat → Fields → StubResult)
    (reqOpts : Fields) (resp : JVal) :
    fieldsSnake (GrpcService.request (some cr) auth stub reqOpts).sentFields
      = true ∧
    (GrpcService.request (some cr) auth (fun _ _ => .success resp) reqOpts).err
      = none ∧
    (GrpcService.request (some cr) auth (fun _ _ => .success resp) reqOpts).resp
      = some resp := by
  refine ⟨?_, rfl, rfl⟩
  show fieldsSnake (requestWithCreds 0 stub reqOpts).sentFields = true
  rw [requestWithCreds_sentFields 0 stub reqOpts]
  exact fieldsSnake_snakeize _

/-- Claim C6: for a single-shot list call, when the page response carries
a (truthy) nextPageToken the callback's nextQuery is the original query
merged with pageToken set to that token (the pageToken binding reads back
as the token, every other key reads back as in the original query), and
when the response carries no nextPageToken the nextQuery is null. -/
theorem getInstances_single_shot_nextQuery (query : Fields)
    (r : ListInstancesResponse) :
    (∀ t, r.nextPageToken = some t → t ≠ "" →
      ∃ args nq,
        Bigtable.getInstancesOnResponse query none (some r) = some args ∧
        args.nextQuery = some nq ∧
        lookupField nq "pageToken" = some (.jstr t) ∧
        ∀ k, k ≠ "pageToken" → lookupField nq k = lookupField query k) ∧
    (r.nextPageToken = none →
      ∃ args,
        Bigtable.getInstancesOnResponse query none (some r) = some args ∧
        args.nextQuery = none) := by
  constructor
  · intro t ht hne
    have hres : Bigtable.getInstancesOnResponse query none (some r) =
        some { err := none,
               instances := some (r.instances.map
                 (fun d => { name := jGet d "name", metadata := d })),
               nextQuery := some (setField query "pageToken" (.jstr t)),
               apiResponse := some r } := by
      simp only [Bigtable.getInstancesOnResponse.eq_def, ht]
      simp [hne]
    exact ⟨_, setField query "pageToken" (.jstr t), hres, rfl,
      lookupField_setField_self query "pageToken" (.jstr t),
      fun k hk => lookupField_setField_other query "pageToken" k (.jstr t) hk⟩
  · intro ht
    have hres : Bigtable.getInstancesOnResponse query none (some r) =
        some { err := none,
               instances := some (r.instances.map
                 (fun d => { name := jGet d "name", metadata := d })),
               nextQuery := none,
               apiResponse := some r } := by
      simp only [Bigtable.getInstancesOnResponse.eq_def, ht]
    exact ⟨_, hres, rfl⟩

/-- Witness for C6: a one-field query and a response carrying the token
"tok", next to a response carrying no token. -/
theorem getInstances_single_shot_nextQuery_witness :
    (∃ args nq,
      Bigtable.getInstancesOnResponse [("a", JVal.jnum 1)] none
          (some { instances := [], nextPageToken := some "tok" }) = some args ∧
      args.nextQuery = some nq ∧
      lookupField nq "pageToken" = some (.jstr "tok") ∧
      ∀ k, k ≠ "pageToken" →
        lookupField nq k = lookupField [("a", JVal.jnum 1)] k) ∧
    ∃ args,
      Bigtable.getInstancesOnResponse [("a", JVal.jnum 1)] none
          (some { instances := [], nextPageToken := none }) = some args ∧
      args.nextQuery = none :=
  ⟨(getInstances_single_shot_nextQuery [("a", JVal.jnum 1)]
      { instances := [], nextPageToken := some "tok" }).1 "tok" rfl (by decide),
   (getInstances_single_shot_nextQuery [("a", JVal.jnum 1)]
      { instances := [], nextPageToken := none }).2 rfl⟩

/-- Claim C7: for a single-shot list call, when the page fetch fails the
callback receives that same error together with null items and null
nextQuery, alongside the raw API response; a partial item list is never
delivered together with an error. -/
theorem getInstances_error_never_partial (query : Fields)
    (err : Option JsError) (e : JsError) (resp : Option ListInstancesResponse)
    (args : GetInstancesCallbackArgs)
    (h : Bigtable.getInstancesOnResponse query err resp = some args)
    (he : args.err = some e) :
    err = some e ∧ args.instances = none ∧ args.nextQuery = none ∧
      args.apiResponse = resp := by
  cases herr : err with
  | some e0 =>
    rw [herr] at h
    simp only [Bigtable.getInstancesOnResponse.eq_def] at h
    have hargs := Option.some.inj h
    rw [← hargs] at he ⊢
    have he0 : e0 = e := Option.some.inj he
    rw [he0]
    exact ⟨rfl, rfl, rfl, rfl⟩
  | none =>
    rw [herr] at h
    simp only [Bigtable.getInstancesOnResponse.eq_def] at h
    cases resp with
    | none => cases h
    | some r =>
      have hargs := Option.some.inj h
      rw [← hargs] at he
      cases he

/-- Witness for C7: a failed page fetch whose error and raw response are
both forwarded. -/
theorem getInstances_error_never_partial_witness :
    (some { code := some 500, message := "Error." } : Option JsError) =
        some { code := some 500, message := "Error." } ∧
    ({ err := some { code := some 500, message := "Error." },
       instances := none, nextQuery := none,
       apiResponse := none } : GetInstancesCallbackArgs).instances = none ∧
    ({ err := some { code := some 500, message := "Error." },
       instances := none, nextQuery := none,
       apiResponse := none } : GetInstancesCallbackArgs).nextQuery = none ∧
    ({ err := some { code := some 500, message := "Error." },
       instances := none, nextQuery := none,
       apiResponse := none } : GetInstancesCallbackArgs).apiResponse = none :=
  getInstances_error_never_partial []
    (some { code := some 500, message := "Error." })
    { code := some 500, message := "Error." } none
    { err := some { code := some 500, message := "Error." },
      instances := none, nextQuery := none, apiResponse := none }
    rfl rfl

/-- Claim C8: GrpcService.convertValue_ returns a tagged structured value
for every convertible input (null, number, string, boolean, array, plain
object map to nullValue, numberValue, stringValue, booleanValue,
listValue, struct respectively), and for an input of any other runtime
type (for example a Date) it throws synchronously - being a pure
function, its error is the immediate result, never an asynchronous
callback. -/
theorem convertValue_tagged_or_throws (v : JVal)
    (hv : supportedVal v = true) :
    (∃ out, convertValue_ v = .ok out ∧ structTag v out = true) ∧
    ∀ t, convertValue_ (.jother t)
      = .error ("Value of type " ++ t ++ " not recognized.") :=
  ⟨convertValue_ok v hv, fun _ => rfl⟩

/-- Witness for C8: a nested array of primitives converts, a Date does
not. -/
theorem convertValue_tagged_or_throws_witness :
    supportedVal (.jarr [.jnull, .jnum 1, .jobj [("a", .jstr "Hi")]]) = true ∧
    ((∃ out, convertValue_ (.jarr [.jnull, .jnum 1, .jobj [("a", .jstr "Hi")]])
        = .ok out ∧
        structTag (.jarr [.jnull, .jnum 1, .jobj [("a", .jstr "Hi")]]) out
          = true) ∧
     ∀ t, convertValue_ (.jother t)
       = .error ("Value of type " ++ t ++ " not recognized.")) :=
  ⟨by rfl, convertValue_tagged_or_throws
    (.jarr [.jnull, .jnum 1, .jobj [("a", .jstr "Hi")]]) (by rfl)⟩

/-- Claim C9: when the credential exchange fails, request delivers the
identical error object to the caller's callback, with a single credential
exchange, no RPC invocation, and no reclassification or wrapping of the
error; getGrpcCredentials_ itself surfaces the auth error unchanged. -/
theorem request_auth_error_surfaced (e : JsError)
    (stub : Nat → Fields → StubResult) (reqOpts : Fields) :
    getGrpcCredentials_ (.error e) = .error e ∧
    GrpcService.request none (.error e) stub reqOpts =
      { credentialCalls := 1, stubCalls := 0, sentFields := [],
        err := some e, resp := none } :=
  ⟨rfl, rfl⟩

/-- Claim C10: a GrpcService constructed with customEndpoint true gets
insecure channel credentials; otherwise none are installed eagerly and
the credential exchange combines SSL channel credentials with the Google
application credential. -/
theorem customEndpoint_creates_insecure_credentials :
    GrpcService.initCredentials true = some .createInsecure ∧
    GrpcService.initCredentials false = none ∧
    ∀ authClient, getGrpcCredentials_ (.ok authClient)
      = .ok (.combineChannelCredentials .createSsl
              (.createFromGoogleCredential authClient)) :=
  ⟨rfl, rfl, fun _ => rfl⟩

end GcloudNode
